import Mathlib

/-!
Shallow embedding of the restart-driven persistent core of the Smart Card
Detective firmware (src/trunk/avrsrc/scd.c): the terminal-reset interrupt
handler `ISR(INT0_vect)` (transaction-log flush, page-aligned cursor update,
warm/cold reset classification) and the application dispatch in `main`.

Addresses are the `uint16_t addrStream` of the C source, so every cursor
advance is taken modulo 2^16; EEPROM byte fields (`addrHi`, `addrLo`,
`warmResetByte`, `selected`) are naturals below 256 where the source reads
them from single EEPROM cells.  EEPROM writes performed by the handler are
recorded as ordered `(address, bytes)` pairs, mirroring each
`eeprom_write_block`/`eeprom_write_byte` call on the log region.
-/

set_option maxRecDepth 40000

/-- Marker written before each serialized command (`cmdstr`, scd.c line 337). -/
def cmdstr : List Nat := [0xCC, 0xCC, 0xCC, 0xCC, 0xCC]

/-- Marker written before each serialized response (`rspstr`, scd.c line 338). -/
def rspstr : List Nat := [0xAA, 0xAA, 0xAA, 0xAA, 0xAA]

/-- Marker written before the application id (`appstr`, scd.c line 339). -/
def appstr : List Nat := [0xDD, 0xDD, 0xDD, 0xDD, 0xDD]

/-- End-of-log marker (`endstr`, scd.c line 340). -/
def endstr : List Nat := [0xBB, 0xBB, 0xBB, 0xBB, 0xBB]

/-- Warm-reset sentinel stored in EEPROM; the source comment at scd.c line 424
says "set 0xAA in EEPROM meaning we have a warm reset". -/
def WARM_RESET_VALUE : Nat := 0xAA

/-- Modelled from the spec: `EEPROM_TLOG_DATA` (`logRegionStart`) is defined in
scd.h, which is not among the sources; the spec only requires a fixed
page-aligned start of the log region above the configuration fields. -/
def EEPROM_TLOG_DATA : Nat := 8

/-- Modelled from the spec: `EEPROM_MAX_ADDRESS` (`logRegionEnd`) is defined in
scd.h, which is not among the sources; the spec only requires a fixed bounded
log region addressed by a 16-bit cursor (4 KB EEPROM on the target device). -/
def EEPROM_MAX_ADDRESS : Nat := 0x0FFF

/-- One captured command/response exchange, as the interrupt handler consumes
it: `SerializeCommand`/`SerializeResponse` (external to scd.c) either return a
malloc-ed byte stream with its length in a `uint8_t`, or NULL.  The fields hold
those serialized streams, `none` standing for a NULL return. -/
structure CRP where
  cmd : Option (List Nat)
  response : Option (List Nat)
deriving DecidableEq, Repr

/-- Recombination of the two cursor bytes, scd.c line 352:
`addrStream = ((addrHi << 8) | addrLo)`. -/
def combine (hi lo : Nat) : Nat := (hi <<< 8) ||| lo

/-- Cursor actually used by the flush, scd.c lines 350-354: the stored hi/lo
pair, except that the erased-state value 0xFFFF is replaced by the start of the
log region. -/
def effCursor (tlogStart hi lo : Nat) : Nat :=
  if combine hi lo = 0xFFFF then tlogStart else combine hi lo

/-- One marker+payload step of the handler loop (scd.c lines 369-379 for the
command, 382-392 for the response): if serialization returned a stream, write
the 5-byte marker at the cursor, advance by 5, write the payload, advance by
its length, and only then test `addrStream > EEPROM_MAX_ADDRESS`; if it
returned NULL nothing is written and no test is made.  Returns the writes, the
new cursor and whether the `break` fires. -/
def partWrites (marker : List Nat) (p : Option (List Nat)) (addr maxA : Nat) :
    List (Nat × List Nat) × Nat × Bool :=
  match p with
  | none => ([], addr, false)
  | some s =>
      let a1 := (addr + 5) % 65536
      let a2 := (a1 + s.length) % 65536
      ([(addr, marker), (a1, s)], a2, decide (maxA < a2))

/-- The record loop of the handler, scd.c lines 366-395: for each record write
the command part then the response part, breaking out of the loop when a part
pushed the cursor past `EEPROM_MAX_ADDRESS`; `FreeCRP(transactionData[i])` runs
only when the loop body reaches its end, so the returned list of freed indices
misses the record that triggered the break and all later ones. -/
def flushLoop (maxA : Nat) : List CRP → Nat → Nat → List (Nat × List Nat) × Nat × List Nat
  | [], addr, _ => ([], addr, [])
  | r :: rest, addr, i =>
    let c := partWrites cmdstr r.cmd addr maxA
    if c.2.2 then (c.1, c.2.1, [])
    else
      let q := partWrites rspstr r.response c.2.1 maxA
      if q.2.2 then (c.1 ++ q.1, q.2.1, [])
      else
        let t := flushLoop maxA rest q.2.1 (i + 1)
        (c.1 ++ q.1 ++ t.1, t.2.1, i :: t.2.2)

/-- Outcome of the flush part of the interrupt handler: the log-region writes
in order, the final value of `addrStream`, the indices passed to `FreeCRP`, and
the cursor bytes persisted to `EEPROM_TLOG_POINTER_HI`/`_LO` (`none` when the
handler leaves them untouched). -/
structure FlushResult where
  writes : List (Nat × List Nat)
  finalAddr : Nat
  freed : List Nat
  cursorHi : Option Nat
  cursorLo : Option Nat
deriving DecidableEq, Repr

/-- The flush performed by `ISR(INT0_vect)`, scd.c lines 350-409: load the
cursor (0xFFFF resets to the region start); if there are transactions and the
cursor is below `EEPROM_MAX_ADDRESS`, write the APP marker and the selected
application id, run the record loop, write the END marker, then round the
cursor: `addrLo += 8; addrLo &= 0xF8` in `uint8_t` arithmetic (the carry of the
`+ 8` is lost) and store the hi/lo pair; otherwise do nothing. -/
def ISRflush (tlogStart maxA sel : Nat) (buf : List CRP) (hi lo : Nat) : FlushResult :=
  let addr0 := effCursor tlogStart hi lo
  if 0 < buf.length ∧ addr0 < maxA then
    let a1 := (addr0 + 5) % 65536
    let a2 := (a1 + 1) % 65536
    let t := flushLoop maxA buf a2 0
    let aEnd := t.2.1
    let aFin := (aEnd + 5) % 65536
    let nHi := (aFin >>> 8) &&& 0xFF
    let nLo := (((aFin &&& 0xFF) + 8) % 256) &&& 0xF8
    { writes := [(addr0, appstr), (a1, [sel])] ++ t.1 ++ [(aEnd, endstr)],
      finalAddr := aFin, freed := t.2.2,
      cursorHi := some nHi, cursorLo := some nLo }
  else
    { writes := [], finalAddr := addr0, freed := [], cursorHi := none, cursorLo := none }

/-- The 16-bit cursor value persisted by a flush, i.e. the stored hi/lo byte
pair as the next boot will recombine it (scd.c line 352), or `none` when the
flush did not update the stored cursor. -/
def FlushResult.persisted (r : FlushResult) : Option Nat :=
  match r.cursorHi, r.cursorLo with
  | some h, some l => some (combine h l)
  | _, _ => none

/-- Cold/warm classification outcome of a terminal reset. -/
inductive ResetClass
  | Cold
  | Warm
deriving DecidableEq, Repr

/-- Reset classifier, scd.c lines 414-427 (the branch taken when the terminal
clock is present): read the warm-reset flag; if it equals the sentinel, report
a warm reset and clear the flag to 0; otherwise report a cold reset and set the
flag to the sentinel.  Returns the classification and the new flag value. -/
def classify (flag : Nat) : ResetClass × Nat :=
  if flag = WARM_RESET_VALUE then (ResetClass.Warm, 0)
  else (ResetClass.Cold, WARM_RESET_VALUE)

/-- Flag value after `classify`. -/
def classifyFlag (flag : Nat) : Nat := (classify flag).2

/-- Warm-reset flag written by the handler, scd.c lines 411-434: when
`GetTerminalFreq()` reports a terminal clock the classifier toggle runs;
otherwise the handler unconditionally writes 0. -/
def warmResetUpdate (termFreq : Bool) (flag : Nat) : Nat :=
  if termFreq then classifyFlag flag else 0

/-- Modelled from the spec: the application identifiers (`APP_STORE_PIN` etc.)
are defined in apps.h / scd.h, which are not among the sources; the spec only
requires a small enumerated set of distinct ids.  The chosen values follow the
menu order of `SelectApplication` (which returns `i + 1`). -/
def APP_STORE_PIN : Nat := 1

/-- Modelled from the spec: see `APP_STORE_PIN`. -/
def APP_LOG_FORWARD : Nat := 2

/-- Modelled from the spec: see `APP_STORE_PIN`. -/
def APP_FW_MODIFY_PIN : Nat := 3

/-- Modelled from the spec: see `APP_STORE_PIN`. -/
def APP_FILTER_GENERATEAC : Nat := 4

/-- Modelled from the spec: see `APP_STORE_PIN`. -/
def APP_FILTER_LOG : Nat := 5

/-- Modelled from the spec: see `APP_STORE_PIN`. -/
def APP_TERMINAL : Nat := 6

/-- Modelled from the spec: see `APP_STORE_PIN`. -/
def APP_VIRTUAL_SERIAL_PORT : Nat := 7

/-- The application entry points called by the `switch` in `main`
(scd.c lines 141-174). -/
inductive AppCall
  | StorePIN
  | ForwardData
  | ForwardAndChangePIN
  | FilterGenerateAC
  | FilterAndLog
  | TerminalApp
  | VirtualSerialApp
deriving DecidableEq, Repr

/-- Result of the dispatch `switch` in `main`: which entry points run (in
order, should the earlier ones return), the final value of the global
`selected`, and the value written to `EEPROM_APPLICATION` during dispatch, if
any. -/
structure DispatchResult where
  appsRun : List AppCall
  selectedAfter : Nat
  persisted : Option Nat
deriving DecidableEq, Repr

/-- The dispatch `switch` of `main`, scd.c lines 141-174.  Every known case
ends in `break` except `APP_VIRTUAL_SERIAL_PORT`, which falls through into
`default`; `default` overwrites `selected` with `APP_TERMINAL`, persists it and
runs `Terminal()`. -/
def dispatch (sel : Nat) : DispatchResult :=
  if sel = APP_STORE_PIN then ⟨[AppCall.StorePIN], sel, none⟩
  else if sel = APP_LOG_FORWARD then ⟨[AppCall.ForwardData], sel, none⟩
  else if sel = APP_FW_MODIFY_PIN then ⟨[AppCall.ForwardAndChangePIN], sel, none⟩
  else if sel = APP_FILTER_GENERATEAC then ⟨[AppCall.FilterGenerateAC], sel, none⟩
  else if sel = APP_FILTER_LOG then ⟨[AppCall.FilterAndLog], sel, none⟩
  else if sel = APP_TERMINAL then ⟨[AppCall.TerminalApp], sel, none⟩
  else if sel = APP_VIRTUAL_SERIAL_PORT then
    ⟨[AppCall.VirtualSerialApp, AppCall.TerminalApp], APP_TERMINAL, some APP_TERMINAL⟩
  else ⟨[AppCall.TerminalApp], APP_TERMINAL, some APP_TERMINAL⟩

/-- The application ids handled by a `case` label of the dispatch `switch`. -/
def knownApps : List Nat :=
  [APP_STORE_PIN, APP_LOG_FORWARD, APP_FW_MODIFY_PIN, APP_FILTER_GENERATEAC,
   APP_FILTER_LOG, APP_TERMINAL, APP_VIRTUAL_SERIAL_PORT]

/-- The mutable state the terminal-reset path touches: the in-RAM transaction
buffer (`transactionData[0..nTransactions)`), the stored cursor bytes, the
warm-reset flag byte and the selected application id. -/
structure ScdState where
  buffer : List CRP
  tlogHi : Nat
  tlogLo : Nat
  warm : Nat
  selected : Nat
deriving DecidableEq, Repr

/-- The complete terminal-reset transition: `ISR(INT0_vect)` (flush, classifier
toggle, one-shot INT0 disable, `wdt_enable(WDTO_15MS)`) followed by the
watchdog reboot into `InitSCD`, which resets the transaction index to zero
(scd.c line 293), leaving the buffer empty for the next run. -/
def resetEdge (tlogStart maxA : Nat) (termFreq : Bool) (s : ScdState) : ScdState × FlushResult :=
  let r := ISRflush tlogStart maxA s.selected s.buffer s.tlogHi s.tlogLo
  ({ buffer := [],
     tlogHi := r.cursorHi.getD s.tlogHi,
     tlogLo := r.cursorLo.getD s.tlogLo,
     warm := warmResetUpdate termFreq s.warm,
     selected := s.selected }, r)

/-- Serialized command bytes of a record (empty when serialization failed). -/
def cmdB (r : CRP) : List Nat := r.cmd.getD []

/-- Serialized response bytes of a record (empty when serialization failed). -/
def rspB (r : CRP) : List Nat := r.response.getD []

/-- Bytes one record contributes to the log stream under the spec format:
5-byte CMD marker, command bytes, 5-byte RSP marker, response bytes. -/
def recordSize (r : CRP) : Nat := 10 + (cmdB r).length + (rspB r).length

/-- Total serialized size of a flush under the spec format: APP marker (5),
app id (1), the records, END marker (5). -/
def flushSize (buf : List CRP) : Nat := 11 + (buf.map recordSize).sum

/-- The log stream the spec prescribes (spec section 3, "Log stream format"):
APP-MARKER, app id, then per record CMD-MARKER + command bytes and
RSP-MARKER + response bytes in append order, then END-MARKER.  This definition
follows the spec wording and is compared against the bytes the embedded
handler emits. -/
def specStream (sel : Nat) (buf : List CRP) : List Nat :=
  appstr ++ [sel] ++ (buf.map (fun r => cmdstr ++ cmdB r ++ rspstr ++ rspB r)).flatten ++ endstr

/-- Flat byte stream of an ordered list of writes. -/
def streamBytes (ws : List (Nat × List Nat)) : List Nat := (ws.map Prod.snd).flatten

/-- The writes of a fully successful record loop starting at a given address:
every record contributes its four writes at consecutive addresses. -/
def fullWrites : List CRP → Nat → List (Nat × List Nat)
  | [], _ => []
  | r :: rs, a =>
      (a, cmdstr) :: (a + 5, cmdB r) :: (a + 5 + (cmdB r).length, rspstr) ::
      (a + 10 + (cmdB r).length, rspB r) :: fullWrites rs (a + recordSize r)

/-- A unit of the emitted stream: either a 5-byte marker immediately followed
by its payload at the next address, or a single stand-alone write. -/
inductive WriteUnit
  | marked (a : Nat) (marker payload : List Nat)
  | single (a : Nat) (bytes : List Nat)
deriving DecidableEq, Repr

/-- The writes a unit performs. -/
def unitWrites : WriteUnit → List (Nat × List Nat)
  | WriteUnit.marked a m p => [(a, m), ((a + 5) % 65536, p)]
  | WriteUnit.single a b => [(a, b)]

/-- Writes of a list of units. -/
def unitsWrites (us : List WriteUnit) : List (Nat × List Nat) :=
  (us.map unitWrites).flatten

/-- A unit the log format allows: a marker unit carries one of the three
record markers or the APP marker, a single write is the END marker. -/
def validUnit : WriteUnit → Prop
  | WriteUnit.marked _ m _ => m = appstr ∨ m = cmdstr ∨ m = rspstr
  | WriteUnit.single _ b => b = endstr

lemma partWrites_units (m : List Nat) (p : Option (List Nat)) (a maxA : Nat) :
    ∃ us : List WriteUnit, (partWrites m p a maxA).1 = unitsWrites us ∧
      ∀ u ∈ us, ∃ x s, u = WriteUnit.marked x m s := by
  cases p with
  | none => exact ⟨[], rfl, by simp⟩
  | some s =>
      refine ⟨[WriteUnit.marked a m s], ?_, ?_⟩
      · simp [partWrites, unitsWrites, unitWrites]
      · intro u hu
        rw [List.mem_singleton] at hu
        exact ⟨a, s, hu⟩

lemma flushLoop_units (maxA : Nat) (rs : List CRP) (a i : Nat) :
    ∃ us : List WriteUnit, (flushLoop maxA rs a i).1 = unitsWrites us ∧
      ∀ u ∈ us, (∃ x s, u = WriteUnit.marked x cmdstr s) ∨
        ∃ x s, u = WriteUnit.marked x rspstr s := by
  induction rs generalizing a i with
  | nil => exact ⟨[], rfl, by simp⟩
  | cons r rest ih =>
      obtain ⟨us1, h1, hm1⟩ := partWrites_units cmdstr r.cmd a maxA
      obtain ⟨us2, h2, hm2⟩ :=
        partWrites_units rspstr r.response (partWrites cmdstr r.cmd a maxA).2.1 maxA
      obtain ⟨us3, h3, hm3⟩ :=
        ih (partWrites rspstr r.response (partWrites cmdstr r.cmd a maxA).2.1 maxA).2.1 (i + 1)
      simp only [flushLoop]
      split
      · exact ⟨us1, h1, fun u hu => Or.inl (hm1 u hu)⟩
      · split
        · refine ⟨us1 ++ us2, ?_, ?_⟩
          · simp [unitsWrites, h1, h2]
          · intro u hu
            rcases List.mem_append.mp hu with h | h
            · exact Or.inl (hm1 u h)
            · exact Or.inr (hm2 u h)
        · refine ⟨us1 ++ us2 ++ us3, ?_, ?_⟩
          · simp [unitsWrites, h1, h2, h3]
          · intro u hu
            rcases List.mem_append.mp hu with h | h
            · rcases List.mem_append.mp h with h | h
              · exact Or.inl (hm1 u h)
              · exact Or.inr (hm2 u h)
            · exact hm3 u h

lemma range_map_succ_shift (k i : Nat) :
    (List.range (k + 1)).map (· + i) = i :: (List.range k).map (· + (i + 1)) := by
  rw [List.range_succ_eq_map]
  simp only [List.map_cons, List.map_map, Nat.zero_add]
  congr 1
  apply List.map_congr_left
  intro x _
  simp [Function.comp, Nat.succ_eq_add_one]
  omega

lemma flushLoop_freed_initseg (maxA : Nat) (rs : List CRP) (a i : Nat) :
    ∃ k, k ≤ rs.length ∧ (flushLoop maxA rs a i).2.2 = (List.range k).map (· + i) := by
  induction rs generalizing a i with
  | nil => exact ⟨0, by simp, by simp [flushLoop]⟩
  | cons r rest ih =>
      simp only [flushLoop]
      split
      · exact ⟨0, by simp, by simp⟩
      · split
        · exact ⟨0, by simp, by simp⟩
        · obtain ⟨k, hk, hfr⟩ :=
            ih (partWrites rspstr r.response (partWrites cmdstr r.cmd a maxA).2.1 maxA).2.1 (i + 1)
          refine ⟨k + 1, by simp; omega, ?_⟩
          simp only [hfr, range_map_succ_shift]

lemma flushLoop_full (maxA : Nat) (rs : List CRP) (a i : Nat)
    (hsome : ∀ r ∈ rs, r.cmd ≠ none ∧ r.response ≠ none)
    (hfit : a + (rs.map recordSize).sum ≤ maxA)
    (hmax : maxA < 65536) :
    flushLoop maxA rs a i =
      (fullWrites rs a, a + (rs.map recordSize).sum, (List.range rs.length).map (· + i)) := by
  induction rs generalizing a i with
  | nil => simp [flushLoop, fullWrites]
  | cons r rest ih =>
      obtain ⟨hcne, hrne⟩ := hsome r (List.mem_cons_self r rest)
      obtain ⟨c, hc⟩ := Option.ne_none_iff_exists'.mp hcne
      obtain ⟨s, hs⟩ := Option.ne_none_iff_exists'.mp hrne
      have hrec : recordSize r = 10 + c.length + s.length := by
        simp [recordSize, cmdB, rspB, hc, hs]
      have hsum : ((r :: rest).map recordSize).sum
          = recordSize r + (rest.map recordSize).sum := by simp
      have hb1 : a + 5 < 65536 := by omega
      have hb2 : a + 5 + c.length < 65536 := by omega
      have hb3 : a + 5 + c.length + 5 < 65536 := by omega
      have hb4 : a + 5 + c.length + 5 + s.length < 65536 := by omega
      have e1 : (a + 5) % 65536 = a + 5 := Nat.mod_eq_of_lt hb1
      have e2 : (a + 5 + c.length) % 65536 = a + 5 + c.length := Nat.mod_eq_of_lt hb2
      have e3 : (a + 5 + c.length + 5) % 65536 = a + 5 + c.length + 5 := Nat.mod_eq_of_lt hb3
      have e4 : (a + 5 + c.length + 5 + s.length) % 65536 = a + 5 + c.length + 5 + s.length :=
        Nat.mod_eq_of_lt hb4
      have hnb1 : ¬ (maxA < a + 5 + c.length) := by omega
      have hnb2 : ¬ (maxA < a + 5 + c.length + 5 + s.length) := by omega
      simp only [flushLoop, partWrites, hc, hs, e1, e2, e3, e4]
      rw [if_neg (by simpa using hnb1), if_neg (by simpa using hnb2)]
      rw [ih (a + 5 + c.length + 5 + s.length) (i + 1)
        (fun x hx => hsome x (List.mem_cons_of_mem r hx)) (by omega)]
      have g1 : a + 5 + c.length + 5 = a + 10 + c.length := by omega
      have g2 : a + 10 + c.length + s.length = a + recordSize r := by rw [hrec]; omega
      simp only [g1, g2, fullWrites, cmdB, rspB, hc, hs, Option.getD_some, List.cons_append,
        List.nil_append, hsum, List.length_cons, range_map_succ_shift, Prod.mk.injEq]
      exact ⟨trivial, by omega, trivial⟩

lemma streamBytes_fullWrites (rs : List CRP) (a : Nat) :
    streamBytes (fullWrites rs a) =
      (rs.map (fun r => cmdstr ++ cmdB r ++ rspstr ++ rspB r)).flatten := by
  induction rs generalizing a with
  | nil => simp [streamBytes, fullWrites]
  | cons r rest ih =>
      simp [streamBytes, fullWrites, ih (a + recordSize r)] at *
      simp [ih, List.append_assoc]

lemma ISRflush_full (td maxA sel : Nat) (buf : List CRP) (hi lo : Nat)
    (hne : 0 < buf.length)
    (hsome : ∀ r ∈ buf, r.cmd ≠ none ∧ r.response ≠ none)
    (hlt : effCursor td hi lo < maxA)
    (hfit : effCursor td hi lo + flushSize buf ≤ maxA)
    (hmax : maxA < 65536) :
    (ISRflush td maxA sel buf hi lo).writes
        = (effCursor td hi lo, appstr) :: (effCursor td hi lo + 5, [sel]) ::
          (fullWrites buf (effCursor td hi lo + 6)
            ++ [(effCursor td hi lo + 6 + (buf.map recordSize).sum, endstr)]) ∧
      (ISRflush td maxA sel buf hi lo).finalAddr = effCursor td hi lo + flushSize buf ∧
      (ISRflush td maxA sel buf hi lo).freed = List.range buf.length := by
  have hfs : flushSize buf = 11 + (buf.map recordSize).sum := rfl
  have e1 : (effCursor td hi lo + 5) % 65536 = effCursor td hi lo + 5 :=
    Nat.mod_eq_of_lt (by omega)
  have e2 : (effCursor td hi lo + 5 + 1) % 65536 = effCursor td hi lo + 6 :=
    Nat.mod_eq_of_lt (by omega)
  have hloop := flushLoop_full maxA buf (effCursor td hi lo + 6) 0 hsome
    (by rw [hfs] at hfit; omega) hmax
  have hmapid : (List.range buf.length).map (. + 0) = List.range buf.length := by
    have : (fun x : Nat => x + 0) = id := funext fun x => rfl
    rw [this, List.map_id]
  have e3 : (effCursor td hi lo + 6 + (buf.map recordSize).sum + 5) % 65536
      = effCursor td hi lo + flushSize buf := by
    rw [hfs] at hfit ⊢
    rw [Nat.mod_eq_of_lt (by omega)]
    omega
  simp only [ISRflush, if_pos (And.intro hne hlt), e1, e2, hloop, hmapid, e3,
    List.cons_append, List.nil_append]
  exact ⟨trivial, trivial, trivial⟩

lemma combine_eq_add (h l : Nat) (hl : l < 256) : combine h l = 256 * h + l := by
  unfold combine
  apply Nat.eq_of_testBit_eq
  intro i
  rw [Nat.testBit_or, Nat.testBit_shiftLeft]
  rcases Nat.lt_or_ge i 8 with hi8 | hi8
  · have hd : decide (i ≥ 8) = false := by
      simp only [decide_eq_false_iff_not]
      omega
    rw [hd, Bool.false_and, Bool.false_or]
    have hmod : (256 * h + l) % 2 ^ 8 = l := by norm_num; omega
    calc Nat.testBit l i
        = Nat.testBit ((256 * h + l) % 2 ^ 8) i := by rw [hmod]
      _ = (decide (i < 8) && Nat.testBit (256 * h + l) i) := Nat.testBit_mod_two_pow _ 8 i
      _ = Nat.testBit (256 * h + l) i := by
            have hd2 : decide (i < 8) = true := by simpa using hi8
            rw [hd2, Bool.true_and]
  · have hd : decide (i ≥ 8) = true := by simpa using hi8
    have hl2 : l < 2 ^ i := lt_of_lt_of_le hl (by
      calc (256 : Nat) = 2 ^ 8 := by norm_num
        _ ≤ 2 ^ i := Nat.pow_le_pow_right (by norm_num) hi8)
    rw [Nat.testBit_lt_two_pow hl2, hd, Bool.true_and, Bool.or_false]
    have hdiv : (256 * h + l) >>> 8 = h := by
      rw [Nat.shiftRight_eq_div_pow]
      norm_num
      omega
    calc Nat.testBit h (i - 8)
        = Nat.testBit ((256 * h + l) >>> 8) (i - 8) := by rw [hdiv]
      _ = Nat.testBit (256 * h + l) (8 + (i - 8)) := Nat.testBit_shiftRight _
      _ = Nat.testBit (256 * h + l) i := by congr 1; omega

lemma mask248_mod8 : ∀ y : Nat, y < 256 → (y &&& 248) % 8 = 0 := by decide

lemma mask248_ge : ∀ y : Nat, y < 248 → y + 1 ≤ ((y + 8) &&& 248) := by decide

lemma and255_eq_mod (x : Nat) : x &&& 255 = x % 256 := by
  have := Nat.and_pow_two_sub_one_eq_mod x 8
  norm_num at this
  exact this

lemma shiftRight8_eq_div (x : Nat) : x >>> 8 = x / 256 := by
  have := Nat.shiftRight_eq_div_pow x 8
  norm_num at this
  exact this

lemma classifyFlag_two_cycle : ∀ k : Nat, classifyFlag^[2 * k] 0 = 0 := by
  intro k
  induction k with
  | zero => rfl
  | succ n ih =>
      have h2 : 2 * (n + 1) = 2 * n + 2 := by omega
      rw [h2, Function.iterate_add_apply]
      have : classifyFlag^[2] 0 = 0 := by decide
      rw [this, ih]

/-- C3: from an unset warm-reset flag, the first classify reports Cold and sets
the sentinel, the second reports Warm and clears, repeating as a 2-cycle. -/
theorem spec_c3_warm_cold_toggle :
    classify 0 = (ResetClass.Cold, WARM_RESET_VALUE) ∧
    classify WARM_RESET_VALUE = (ResetClass.Warm, 0) ∧
    ∀ k : Nat,
      classifyFlag^[2 * k] 0 = 0 ∧
      classifyFlag^[2 * k + 1] 0 = WARM_RESET_VALUE ∧
      (classify (classifyFlag^[2 * k] 0)).1 = ResetClass.Cold ∧
      (classify (classifyFlag^[2 * k + 1] 0)).1 = ResetClass.Warm := by
  refine ⟨by decide, by decide, fun k => ?_⟩
  have h0 := classifyFlag_two_cycle k
  have h1 : classifyFlag^[2 * k + 1] 0 = WARM_RESET_VALUE := by
    rw [Function.iterate_succ_apply', h0]
    decide
  exact ⟨h0, h1, by rw [h0]; decide, by rw [h1]; decide⟩

/-- C9: with no terminal clock the handler writes 0 to the warm-reset flag
regardless of its previous value; the classifier toggle runs only when the
terminal clock is detected. -/
theorem spec_c9_no_clock_clears_flag :
    (∀ flag : Nat, warmResetUpdate false flag = 0) ∧
    ∀ flag : Nat, warmResetUpdate true flag = classifyFlag flag :=
  ⟨fun _ => rfl, fun _ => rfl⟩

/-- C10: the APP_VIRTUAL_SERIAL_PORT case falls through into default, so if
VirtualSerial returns, selected becomes APP_TERMINAL, it is persisted, and
Terminal runs. -/
theorem spec_c10_virtual_serial_fallthrough :
    dispatch APP_VIRTUAL_SERIAL_PORT =
      ⟨[AppCall.VirtualSerialApp, AppCall.TerminalApp], APP_TERMINAL, some APP_TERMINAL⟩ := by
  decide

/-- C6: an id outside the known set dispatches to the default Terminal
application and persists APP_TERMINAL; a later boot reading the persisted id
runs Terminal directly with no further fallback write. -/
theorem spec_c6_unknown_app_fallback : ∀ sel : Nat, sel ∉ knownApps →
    dispatch sel = ⟨[AppCall.TerminalApp], APP_TERMINAL, some APP_TERMINAL⟩ ∧
    dispatch APP_TERMINAL = ⟨[AppCall.TerminalApp], APP_TERMINAL, none⟩ := by
  intro sel h
  simp only [knownApps, List.mem_cons, List.not_mem_nil, or_false, not_or] at h
  obtain ⟨h1, h2, h3, h4, h5, h6, h7⟩ := h
  refine ⟨?_, by decide⟩
  unfold dispatch
  rw [if_neg h1, if_neg h2, if_neg h3, if_neg h4, if_neg h5, if_neg h6, if_neg h7]

theorem spec_c6_witness :
    dispatch 100 = ⟨[AppCall.TerminalApp], APP_TERMINAL, some APP_TERMINAL⟩ ∧
    dispatch APP_TERMINAL = ⟨[AppCall.TerminalApp], APP_TERMINAL, none⟩ :=
  spec_c6_unknown_app_fallback 100 (by decide)

/-- C7: an empty buffer makes the flush a no-op on the log region, and a stored
cursor already past the region end makes it a silent no-op that drops the
buffered records (nothing written, nothing freed, cursor untouched). -/
theorem spec_c7_flush_noop : ∀ td maxA sel buf hi lo,
    (buf.length = 0 →
      (ISRflush td maxA sel buf hi lo).writes = [] ∧
      (ISRflush td maxA sel buf hi lo).freed = [] ∧
      (ISRflush td maxA sel buf hi lo).cursorHi = none ∧
      (ISRflush td maxA sel buf hi lo).cursorLo = none) ∧
    (maxA < effCursor td hi lo →
      (ISRflush td maxA sel buf hi lo).writes = [] ∧
      (ISRflush td maxA sel buf hi lo).freed = [] ∧
      (ISRflush td maxA sel buf hi lo).cursorHi = none ∧
      (ISRflush td maxA sel buf hi lo).cursorLo = none) := by
  intro td maxA sel buf hi lo
  constructor
  · intro h
    simp only [ISRflush, if_neg (by omega : ¬ (0 < buf.length ∧ effCursor td hi lo < maxA))]
    exact ⟨trivial, trivial, trivial, trivial⟩
  · intro h
    simp only [ISRflush, if_neg (by omega : ¬ (0 < buf.length ∧ effCursor td hi lo < maxA))]
    exact ⟨trivial, trivial, trivial, trivial⟩

theorem spec_c7_witness :
    (ISRflush EEPROM_TLOG_DATA EEPROM_MAX_ADDRESS APP_TERMINAL [] 255 255).writes = [] ∧
    (ISRflush EEPROM_TLOG_DATA EEPROM_MAX_ADDRESS APP_TERMINAL
      [⟨some [1], some [2]⟩] 16 0).writes = [] :=
  ⟨((spec_c7_flush_noop EEPROM_TLOG_DATA EEPROM_MAX_ADDRESS APP_TERMINAL [] 255 255).1 rfl).1,
   ((spec_c7_flush_noop EEPROM_TLOG_DATA EEPROM_MAX_ADDRESS APP_TERMINAL
      [⟨some [1], some [2]⟩] 16 0).2 (by decide)).1⟩

/-- C8: a stored cursor equal to the erased-state value 0xFFFF (both bytes
0xFF) is reset to the region start before any log write; any other stored
value is used as-is, and a non-empty in-bounds flush starts writing at it. -/
theorem spec_c8_uninitialized_cursor : ∀ td maxA sel buf hi lo,
    hi < 256 → lo < 256 →
    ((hi = 255 ∧ lo = 255) → effCursor td hi lo = td) ∧
    (¬ (hi = 255 ∧ lo = 255) → effCursor td hi lo = combine hi lo) ∧
    (0 < buf.length → effCursor td hi lo < maxA →
      (ISRflush td maxA sel buf hi lo).writes.head? =
        some (effCursor td hi lo, appstr)) := by
  intro td maxA sel buf hi lo hhi hlo
  have hcomb := combine_eq_add hi lo hlo
  refine ⟨?_, ?_, ?_⟩
  · rintro ⟨rfl, rfl⟩
    unfold effCursor
    rw [if_pos (by rw [hcomb])]
  · intro h
    unfold effCursor
    rw [if_neg]
    intro he
    rw [hcomb] at he
    exact h (by omega)
  · intro h1 h2
    simp only [ISRflush, if_pos (And.intro h1 h2)]
    rfl

theorem spec_c8_witness :
    effCursor EEPROM_TLOG_DATA 255 255 = EEPROM_TLOG_DATA ∧
    effCursor EEPROM_TLOG_DATA 15 254 = combine 15 254 ∧
    (ISRflush EEPROM_TLOG_DATA EEPROM_MAX_ADDRESS APP_TERMINAL
        [⟨some [1], some [2]⟩] 255 255).writes.head? =
      some (effCursor EEPROM_TLOG_DATA 255 255, appstr) :=
  ⟨(spec_c8_uninitialized_cursor EEPROM_TLOG_DATA EEPROM_MAX_ADDRESS APP_TERMINAL []
      255 255 (by decide) (by decide)).1 ⟨rfl, rfl⟩,
   (spec_c8_uninitialized_cursor EEPROM_TLOG_DATA EEPROM_MAX_ADDRESS APP_TERMINAL []
      15 254 (by decide) (by decide)).2.1 (by decide),
   (spec_c8_uninitialized_cursor EEPROM_TLOG_DATA EEPROM_MAX_ADDRESS APP_TERMINAL
      [⟨some [1], some [2]⟩] 255 255 (by decide) (by decide)).2.2 (by decide) (by decide)⟩

/-- C1 fails as stated: with the stored cursor just below the region end, the
flush issues record writes at addresses past EEPROM_MAX_ADDRESS (the bound is
only tested after writing), and the terminating END marker itself lands out of
bounds (address 4106 > 4095). -/
theorem spec_c1_counterexample :
    (∃ w ∈ (ISRflush EEPROM_TLOG_DATA EEPROM_MAX_ADDRESS APP_TERMINAL
        [⟨some [17], some [34]⟩] 15 254).writes, EEPROM_MAX_ADDRESS < w.1) ∧
    (ISRflush EEPROM_TLOG_DATA EEPROM_MAX_ADDRESS APP_TERMINAL
        [⟨some [17], some [34]⟩] 15 254).writes.getLast? = some (4106, endstr) ∧
    EEPROM_MAX_ADDRESS < 4106 := by
  decide

lemma ISRflush_writes_pos (td maxA sel : Nat) (buf : List CRP) (hi lo : Nat)
    (h : 0 < buf.length ∧ effCursor td hi lo < maxA) :
    (ISRflush td maxA sel buf hi lo).writes =
      [(effCursor td hi lo, appstr), ((effCursor td hi lo + 5) % 65536, [sel])]
        ++ (flushLoop maxA buf (((effCursor td hi lo + 5) % 65536 + 1) % 65536) 0).1
        ++ [((flushLoop maxA buf (((effCursor td hi lo + 5) % 65536 + 1) % 65536) 0).2.1,
             endstr)] := by
  simp only [ISRflush, if_pos h]

/-- C1 amended: every write of a flush belongs to a well-formed unit — each
APP/CMD/RSP marker is immediately followed by its full payload at the next
address — and a non-empty flush starts with the APP-MARKER unit and always
ends with the END-MARKER write (possibly past the region bound, which is only
tested after each payload write). -/
theorem spec_c1_amended : ∀ td maxA sel buf hi lo,
    ∃ us : List WriteUnit,
      (ISRflush td maxA sel buf hi lo).writes = unitsWrites us ∧
      (∀ u ∈ us, validUnit u) ∧
      ((ISRflush td maxA sel buf hi lo).writes = [] ∨
        ∃ a0 aE,
          us.head? = some (WriteUnit.marked a0 appstr [sel]) ∧
          us.getLast? = some (WriteUnit.single aE endstr) ∧
          (ISRflush td maxA sel buf hi lo).writes.getLast? = some (aE, endstr)) := by
  intro td maxA sel buf hi lo
  by_cases h : 0 < buf.length ∧ effCursor td hi lo < maxA
  · have hw := ISRflush_writes_pos td maxA sel buf hi lo h
    obtain ⟨usL, hL, hmL⟩ :=
      flushLoop_units maxA buf (((effCursor td hi lo + 5) % 65536 + 1) % 65536) 0
    rw [hL] at hw
    refine ⟨WriteUnit.marked (effCursor td hi lo) appstr [sel] ::
        (usL ++ [WriteUnit.single
          (flushLoop maxA buf (((effCursor td hi lo + 5) % 65536 + 1) % 65536) 0).2.1
          endstr]),
      ?_, ?_, Or.inr ⟨effCursor td hi lo,
        (flushLoop maxA buf (((effCursor td hi lo + 5) % 65536 + 1) % 65536) 0).2.1,
        rfl, ?_, ?_⟩⟩
    · rw [hw]
      simp [unitsWrites, unitWrites, List.append_assoc]
    · intro u hu
      rcases List.mem_cons.mp hu with rfl | hu2
      · exact Or.inl rfl
      · rcases List.mem_append.mp hu2 with hu3 | hu3
        · rcases hmL u hu3 with ⟨x, s, rfl⟩ | ⟨x, s, rfl⟩
          · exact Or.inr (Or.inl rfl)
          · exact Or.inr (Or.inr rfl)
        · rw [List.mem_singleton] at hu3
          subst hu3
          exact rfl
    · rw [show WriteUnit.marked (effCursor td hi lo) appstr [sel] ::
          (usL ++ [WriteUnit.single
            (flushLoop maxA buf (((effCursor td hi lo + 5) % 65536 + 1) % 65536) 0).2.1
            endstr])
          = (WriteUnit.marked (effCursor td hi lo) appstr [sel] :: usL)
            ++ [WriteUnit.single
              (flushLoop maxA buf (((effCursor td hi lo + 5) % 65536 + 1) % 65536) 0).2.1
              endstr] from rfl,
        List.getLast?_concat]
    · rw [hw, List.getLast?_concat]
  · refine ⟨[], ?_, by simp, Or.inl ?_⟩ <;>
      simp [ISRflush, if_neg h, unitsWrites]

/-- C2 fails as stated: when the END marker leaves the final address with low
byte 0xF9, the 8-bit page rounding loses the carry and the persisted cursor
(0x0E00 = 3584) is below the pre-flush cursor (0x0EE0 = 3808); and on an
overrunning flush the persisted cursor (4112) exceeds EEPROM_MAX_ADDRESS. -/
theorem spec_c2_counterexample :
    ((ISRflush EEPROM_TLOG_DATA EEPROM_MAX_ADDRESS APP_TERMINAL
        [⟨some [1, 2], some [3, 4]⟩] 14 224).persisted = some 3584 ∧
      combine 14 224 = 3808 ∧ 3584 < 3808) ∧
    ((ISRflush EEPROM_TLOG_DATA EEPROM_MAX_ADDRESS APP_TERMINAL
        [⟨some [17], some [34]⟩] 15 254).persisted = some 4112 ∧
      EEPROM_MAX_ADDRESS < 4112) := by
  decide

/-- C2 amended: the persisted cursor is always a multiple of 8 (page aligned);
and whenever the flush did not wrap the 16-bit address space and the final
address's low byte is below 0xF8 (so the 8-bit rounding does not lose its
carry), the persisted cursor is strictly above the final address, hence above
the pre-flush cursor.  Monotonicity and the region bound do not hold
unconditionally (see the counterexample). -/
theorem spec_c2_amended : ∀ td maxA sel buf hi lo c,
    (ISRflush td maxA sel buf hi lo).persisted = some c →
    c % 8 = 0 ∧
    ((ISRflush td maxA sel buf hi lo).finalAddr % 256 < 248 →
      effCursor td hi lo ≤ (ISRflush td maxA sel buf hi lo).finalAddr →
      effCursor td hi lo < c) := by
  intro td maxA sel buf hi lo c hp
  by_cases h : 0 < buf.length ∧ effCursor td hi lo < maxA
  · have hfin : (ISRflush td maxA sel buf hi lo).finalAddr
        = ((flushLoop maxA buf (((effCursor td hi lo + 5) % 65536 + 1) % 65536) 0).2.1 + 5)
            % 65536 := by
      simp only [ISRflush, if_pos h]
    have hcur : (ISRflush td maxA sel buf hi lo).cursorHi
          = some (((ISRflush td maxA sel buf hi lo).finalAddr >>> 8) &&& 0xFF) ∧
        (ISRflush td maxA sel buf hi lo).cursorLo
          = some (((((ISRflush td maxA sel buf hi lo).finalAddr &&& 0xFF) + 8) % 256)
              &&& 0xF8) := by
      simp only [ISRflush, if_pos h]
      exact ⟨trivial, trivial⟩
    generalize hF : (ISRflush td maxA sel buf hi lo).finalAddr = aF at hfin hcur
    have haF : aF < 65536 := by
      rw [hfin]
      exact Nat.mod_lt _ (by norm_num)
    have hlo256 : ((((aF &&& 0xFF) + 8) % 256) &&& 0xF8) < 256 :=
      lt_of_le_of_lt Nat.and_le_left (Nat.mod_lt _ (by norm_num))
    have hper : c = combine ((aF >>> 8) &&& 0xFF) ((((aF &&& 0xFF) + 8) % 256) &&& 0xF8) := by
      unfold FlushResult.persisted at hp
      rw [hcur.1, hcur.2] at hp
      simp at hp
      exact hp.symm
    have hcomb := combine_eq_add ((aF >>> 8) &&& 0xFF) ((((aF &&& 0xFF) + 8) % 256) &&& 0xF8)
      hlo256
    have hmod8 : ((((aF &&& 0xFF) + 8) % 256) &&& 0xF8) % 8 = 0 :=
      mask248_mod8 _ (Nat.mod_lt _ (by norm_num))
    constructor
    · rw [hper, hcomb]
      omega
    · intro hb hge
      rw [shiftRight8_eq_div, and255_eq_mod, and255_eq_mod] at hper
      have hdiv : (aF / 256) % 256 = aF / 256 := Nat.mod_eq_of_lt (by omega)
      have hp8 : (aF % 256 + 8) % 256 = aF % 256 + 8 := Nat.mod_eq_of_lt (by omega)
      have hge8 : aF % 256 + 1 ≤ ((aF % 256 + 8) &&& 248) := mask248_ge _ (by omega)
      rw [hdiv, hp8] at hper
      have hble : ((aF % 256 + 8) &&& 248) < 256 := lt_of_le_of_lt Nat.and_le_left (by omega)
      have hc2 : c = 256 * (aF / 256) + ((aF % 256 + 8) &&& 248) := by
        rw [hper]
        exact combine_eq_add _ _ hble
      omega
  · have : (ISRflush td maxA sel buf hi lo).persisted = none := by
      simp only [ISRflush, if_neg h]
      rfl
    rw [this] at hp
    exact absurd hp (by simp)

theorem spec_c2_amended_witness :
    (ISRflush EEPROM_TLOG_DATA EEPROM_MAX_ADDRESS APP_TERMINAL
        [⟨some [1], some [2]⟩] 255 255).persisted = some 32 ∧
    32 % 8 = 0 ∧ effCursor EEPROM_TLOG_DATA 255 255 < 32 := by
  have h := spec_c2_amended EEPROM_TLOG_DATA EEPROM_MAX_ADDRESS APP_TERMINAL
    [⟨some [1], some [2]⟩] 255 255 32 (by decide)
  exact ⟨by decide, h.1, h.2 (by decide) (by decide)⟩

/-- C4 fails as stated: on this truncated flush the single drained record is
never passed to FreeCRP — the `break` taken after the response write crossed
the bound skips the `FreeCRP` call at the end of the loop body. -/
theorem spec_c4_counterexample :
    (ISRflush EEPROM_TLOG_DATA EEPROM_MAX_ADDRESS APP_TERMINAL
        [⟨some [1, 2, 3], some [9]⟩] 15 240).freed = [] ∧
    0 ∉ (ISRflush EEPROM_TLOG_DATA EEPROM_MAX_ADDRESS APP_TERMINAL
        [⟨some [1, 2, 3], some [9]⟩] 15 240).freed ∧
    (ISRflush EEPROM_TLOG_DATA EEPROM_MAX_ADDRESS APP_TERMINAL
        [⟨some [1, 2, 3], some [9]⟩] 15 240).writes ≠ [] := by
  decide

/-- C4 amended: FreeCRP is called exactly on an initial prefix of the drained
records — the records fully written before any bound-exceeded break; when no
truncation occurs (the whole serialized buffer fits below the bound) every
drained record is freed. -/
theorem spec_c4_amended : ∀ td maxA sel buf hi lo,
    (∃ k, k ≤ buf.length ∧ (ISRflush td maxA sel buf hi lo).freed = List.range k) ∧
    ((∀ r ∈ buf, r.cmd ≠ none ∧ r.response ≠ none) →
      0 < buf.length →
      effCursor td hi lo < maxA →
      effCursor td hi lo + flushSize buf ≤ maxA →
      maxA < 65536 →
      (ISRflush td maxA sel buf hi lo).freed = List.range buf.length) := by
  intro td maxA sel buf hi lo
  constructor
  · by_cases h : 0 < buf.length ∧ effCursor td hi lo < maxA
    · obtain ⟨k, hk, hfr⟩ :=
        flushLoop_freed_initseg maxA buf (((effCursor td hi lo + 5) % 65536 + 1) % 65536) 0
      refine ⟨k, hk, ?_⟩
      have hfreed : (ISRflush td maxA sel buf hi lo).freed
          = (flushLoop maxA buf (((effCursor td hi lo + 5) % 65536 + 1) % 65536) 0).2.2 := by
        simp only [ISRflush, if_pos h]
      rw [hfreed, hfr]
      have : (fun x : Nat => x + 0) = id := funext fun x => rfl
      rw [this, List.map_id]
    · refine ⟨0, by omega, ?_⟩
      simp only [ISRflush, if_neg h]
      rfl
  · intro hsome hne hlt hfit hmax
    exact (ISRflush_full td maxA sel buf hi lo hne hsome hlt hfit hmax).2.2

theorem spec_c4_amended_witness :
    (ISRflush EEPROM_TLOG_DATA EEPROM_MAX_ADDRESS APP_TERMINAL
        [⟨some [1], some [2]⟩] 255 255).freed = List.range 1 :=
  (spec_c4_amended EEPROM_TLOG_DATA EEPROM_MAX_ADDRESS APP_TERMINAL
      [⟨some [1], some [2]⟩] 255 255).2
    (by decide) (by decide) (by decide) (by decide) (by decide)

/-- C5: a fully successful flush of a non-empty buffer emits exactly the spec
stream — APP-MARKER, app id, then per record in append order CMD-MARKER +
command and RSP-MARKER + response, then END-MARKER — the cursor advances by
exactly the serialized size before page rounding, the reset transition leaves
the buffer empty, and the two-record scenario advances the cursor by exactly
5+1+(5+5)+(5+2)+(5+5)+(5+6)+5 bytes from the region start. -/
theorem spec_c5_flush_stream : ∀ td maxA sel buf hi lo,
    0 < buf.length →
    (∀ r ∈ buf, r.cmd ≠ none ∧ r.response ≠ none) →
    effCursor td hi lo < maxA →
    effCursor td hi lo + flushSize buf ≤ maxA →
    maxA < 65536 →
    streamBytes (ISRflush td maxA sel buf hi lo).writes = specStream sel buf ∧
    (ISRflush td maxA sel buf hi lo).finalAddr = effCursor td hi lo + flushSize buf ∧
    (∀ termFreq warm,
      (resetEdge td maxA termFreq ⟨buf, hi, lo, warm, sel⟩).1.buffer = []) ∧
    (ISRflush EEPROM_TLOG_DATA EEPROM_MAX_ADDRESS sel
        [⟨some [0x00, 0xA4, 0x04, 0x00, 0x0E], some [0x90, 0x00]⟩,
         ⟨some [0x00, 0xC0, 0x00, 0x00, 0x0E], some [0xDE, 0xAD, 0xBE, 0xEF, 0x90, 0x00]⟩]
        255 255).finalAddr
      = EEPROM_TLOG_DATA + (5 + 1 + (5 + 5) + (5 + 2) + (5 + 5) + (5 + 6) + 5) := by
  intro td maxA sel buf hi lo hne hsome hlt hfit hmax
  obtain ⟨hw, hfin, _⟩ := ISRflush_full td maxA sel buf hi lo hne hsome hlt hfit hmax
  refine ⟨?_, hfin, fun _ _ => rfl, ?_⟩
  · rw [hw]
    simp only [streamBytes, List.map_cons, List.map_append, List.map_cons, List.map_nil,
      List.flatten_cons, List.flatten_append, List.flatten_cons, List.flatten_nil]
    have hfull := streamBytes_fullWrites buf (effCursor td hi lo + 6)
    simp only [streamBytes] at hfull
    rw [hfull]
    simp [specStream, List.append_assoc]
  · have hsc := (ISRflush_full EEPROM_TLOG_DATA EEPROM_MAX_ADDRESS sel
        [⟨some [0x00, 0xA4, 0x04, 0x00, 0x0E], some [0x90, 0x00]⟩,
         ⟨some [0x00, 0xC0, 0x00, 0x00, 0x0E], some [0xDE, 0xAD, 0xBE, 0xEF, 0x90, 0x00]⟩]
        255 255 (by decide) (by decide) (by decide) (by decide) (by decide)).2.1
    rw [hsc]
    decide

theorem spec_c5_witness :
    streamBytes (ISRflush EEPROM_TLOG_DATA EEPROM_MAX_ADDRESS APP_TERMINAL
        [⟨some [0x00, 0xA4, 0x04, 0x00, 0x0E], some [0x90, 0x00]⟩,
         ⟨some [0x00, 0xC0, 0x00, 0x00, 0x0E], some [0xDE, 0xAD, 0xBE, 0xEF, 0x90, 0x00]⟩]
        255 255).writes
      = specStream APP_TERMINAL
        [⟨some [0x00, 0xA4, 0x04, 0x00, 0x0E], some [0x90, 0x00]⟩,
         ⟨some [0x00, 0xC0, 0x00, 0x00, 0x0E], some [0xDE, 0xAD, 0xBE, 0xEF, 0x90, 0x00]⟩] :=
  (spec_c5_flush_stream EEPROM_TLOG_DATA EEPROM_MAX_ADDRESS APP_TERMINAL
      [⟨some [0x00, 0xA4, 0x04, 0x00, 0x0E], some [0x90, 0x00]⟩,
       ⟨some [0x00, 0xC0, 0x00, 0x00, 0x0E], some [0xDE, 0xAD, 0xBE, 0xEF, 0x90, 0x00]⟩]
      255 255 (by decide) (by decide) (by decide) (by decide) (by decide)).1
